import Mathlib

/-!
# Verification development for the supptracker repository

A shallow embedding of the supplement-interaction tracker's frontend code
(`src/api.ts`, `src/App.tsx`, `src/src/App.tsx`, `src/web/src/StackChecker.tsx`)
and, where the repository's Python risk engine is referenced only through its
documentation, a model of the risk-scoring engine built from the design
specification.  Numeric scores are embedded as rationals (the TypeScript code
computes with IEEE doubles; every comparison and arithmetic step proved here
involves only order-preserving operations, so the rational model is faithful
for the stated properties).  JavaScript exceptions are embedded as the
`Except` monad: a thrown `Error` is `Except.error`.
-/

namespace Supptracker

/-! ## String primitives

JavaScript's `trim`, `toLowerCase` and single-character `split` are modelled
directly over the character list underlying a `String`, so that every
definition evaluates inside the kernel. -/

/-- Whitespace as recognised by JavaScript's `String.prototype.trim` on the
characters that occur in this code base. -/
def isJsSpace (c : Char) : Bool :=
  c = ' ' || c = '\t' || c = '\n' || c = '\r'

/-- JavaScript `value.trim()`. -/
def jsTrim (s : String) : String :=
  String.mk (((s.data.dropWhile isJsSpace).reverse.dropWhile isJsSpace).reverse)

/-- JavaScript `value.toLowerCase()` (ASCII case folding). -/
def jsLower (s : String) : String :=
  String.mk (s.data.map Char.toLower)

/-- Split a character list at every character satisfying `p`, keeping empty
segments, as JavaScript's `String.prototype.split` does. -/
def splitCharList (p : Char → Bool) : List Char → List (List Char)
  | [] => [[]]
  | c :: cs =>
    match splitCharList p cs with
    | [] => [[]]
    | g :: gs => if p c then [] :: g :: gs else (c :: g) :: gs

/-- JavaScript `value.split(sep)` for a class of single-character
separators. -/
def jsSplit (p : Char → Bool) (s : String) : List String :=
  (splitCharList p s.data).map String.mk

/-! ## Frontend `Source` objects and `sourceLabel` (src/App.tsx, src/src/App.tsx)

A `Source` is a JSON object whose fields are all optional strings; a missing
field is `none`, and JavaScript's `||` chain skips a field when it is absent
or the empty string (both are falsy). -/

structure Source where
  id : Option String := none
  citation : Option String := none
  title : Option String := none
  reference : Option String := none
  url : Option String := none
deriving Repr, DecidableEq

/-- JavaScript `x || y` for an optional string `x`: keep `x` when it is
present and non-empty (truthy), otherwise fall through to `y`. -/
def jsOrString (x : Option String) (y : String) : String :=
  match x with
  | none => y
  | some s => if s = "" then y else s

/-- `sourceLabel` from `src/App.tsx` lines 26-35 (identical in
`src/src/App.tsx` lines 53-62): the `||` cascade over
citation, title, reference, url, id with a positional fallback. -/
def sourceLabel (source : Source) (index : Nat) : String :=
  jsOrString source.citation
    (jsOrString source.title
      (jsOrString source.reference
        (jsOrString source.url
          (jsOrString source.id ("Source " ++ toString (index + 1))))))

/-- Restatement of claim C10's words: the first non-empty value among the
five fields, in that order, else the positional fallback. -/
def sourceLabelSpec (source : Source) (index : Nat) : String :=
  let nonEmpty : List String :=
    [source.citation, source.title, source.reference, source.url,
      source.id].filterMap id |>.filter (· ≠ "")
  match nonEmpty with
  | [] => "Source " ++ toString (index + 1)
  | v :: _ => v

/-! ## `searchCompounds` (src/api.ts lines 74-80)

The function guards on `!query.trim()` and returns `[]` without calling
`fetch`; otherwise it issues the request and unwraps
`data.results ?? data.compounds ?? []`.  The embedding takes the backend's
JSON payload as an explicit argument and returns, alongside the compound
list, whether a request was issued. -/

structure Compound where
  id : String
  name : String
deriving Repr, DecidableEq

structure SearchPayload where
  results : Option (List Compound) := none
  compounds : Option (List Compound) := none
deriving Repr, DecidableEq

def searchCompounds (query : String) (payload : SearchPayload) :
    List Compound × Bool :=
  if jsTrim query = "" then ([], false)
  else ((payload.results.or payload.compounds).getD [], true)

/-! ## Stack submission handlers (src/web/src/StackChecker.tsx, src/src/App.tsx)

Both handlers validate the parsed compound list before any request is made.
`Except.error` models setting the error state and returning without a
request; `Except.ok` models submitting the list to `/api/stack/check`. -/

/-- `input.split(',').map(s => s.trim()).filter(Boolean)` from
`StackChecker.tsx` line 19. -/
def parseStackCheckerInput (input : String) : List String :=
  ((jsSplit (· = ',') input).map jsTrim).filter (· ≠ "")

/-- `handleSubmit` from `src/web/src/StackChecker.tsx` lines 18-24: fewer
than two parsed compounds is rejected with a validation message. -/
def stackCheckerSubmit (input : String) : Except String (List String) :=
  let compounds := parseStackCheckerInput input
  if compounds.length < 2 then
    Except.error "Enter at least two compounds separated by commas."
  else
    Except.ok compounds

/-- `parseStackInput` from `src/src/App.tsx` lines 46-51 (identical in
`src/App.tsx` lines 19-24): split on newlines and commas, trim, drop
empties. -/
def parseStackInput (value : String) : List String :=
  ((jsSplit (fun c => c = '\n' || c = ',') value).map jsTrim).filter (· ≠ "")

/-- `handleStackSubmit` from `src/src/App.tsx` lines 563-572 (identical
guard in `src/App.tsx` lines 130-139): an empty parsed list is rejected with
a validation message; otherwise the list is submitted. -/
def handleStackSubmit (stackText : String) : Except String (List String) :=
  let compounds := parseStackInput stackText
  if compounds.length = 0 then
    Except.error "List at least one compound to evaluate the stack."
  else
    Except.ok compounds

/-! ## API helpers (src/api.ts)

A backend `Response` is modelled by its `ok` flag, its body text, and the
result of `JSON.parse` on the trimmed body.  A thrown `Error` is
`Except.error`. -/

/-- Outcome of `JSON.parse` on a response body: failure, a JSON string, a
JSON object (restricted to the `message`/`detail`/`error` fields the code
inspects), or any other JSON value. -/
inductive JsonBody where
  | invalid : JsonBody
  | str (s : String) : JsonBody
  | obj (message detail errorField : Option String) : JsonBody
  | other : JsonBody
deriving Repr, DecidableEq

structure ResponseModel where
  ok : Bool
  text : String
  json : JsonBody
deriving Repr, DecidableEq

/-- `parseError` from `src/api.ts` lines 41-59: the fallback for an empty
body, the parsed string, the first of `message`/`detail`/`error`, or the raw
text. -/
def parseError (res : ResponseModel) (fallback : String) : String :=
  let text := jsTrim res.text
  if text = "" then fallback
  else
    match res.json with
    | JsonBody.invalid => text
    | JsonBody.str s => s
    | JsonBody.obj message detail errorField =>
      match message with
      | some m => m
      | none =>
        match detail with
        | some d => d
        | none =>
          match errorField with
          | some e => e
          | none => text
    | JsonBody.other => text

/-- `request` from `src/api.ts` lines 66-72: a non-OK response throws an
`Error` carrying the parsed message; an OK response resolves to the JSON
payload. -/
def request (res : ResponseModel) : Except String JsonBody :=
  if res.ok then Except.ok res.json
  else Except.error (parseError res "Request failed")

/-- `getInteraction` from `src/api.ts` lines 9-13: a non-OK response (the
backend's 404 for an unknown pair) throws `Error('pair not found')`. -/
def getInteraction (res : ResponseModel) : Except String JsonBody :=
  if res.ok then Except.ok res.json
  else Except.error "pair not found"

/-- UI state produced by a pair-check handler after the request settles. -/
structure PairState where
  status : String
  errorMessage : Option String
  payload : Option JsonBody
deriving Repr, DecidableEq

/-- The `try`/`catch` of `handlePairSubmit` (src/App.tsx lines 117-128): a
resolved request becomes success state, a thrown error is caught and stored
as the error message — it does not propagate. -/
def handlePairOutcome (r : Except String JsonBody) : PairState :=
  match r with
  | Except.ok d => { status := "success", errorMessage := none, payload := some d }
  | Except.error e => { status := "error", errorMessage := some e, payload := none }

/-! ## Source resolution (src/src/App.tsx lines 25-40, src/App.tsx lines 37-40)

The richer frontend variant receives an `InteractionResponse` whose
`interaction.sources` are source-id strings and whose top-level `sources`
are detailed `Source` objects resolved by the backend; the simpler variant
reads the `sources` array off the record itself. -/

/-- `array.map((x, index) => f(index, x))`. -/
def mapWithIndexFrom (f : Nat → α → β) (i : Nat) : List α → List β
  | [] => []
  | x :: xs => f i x :: mapWithIndexFrom f (i + 1) xs

def mapWithIndex (f : Nat → α → β) (l : List α) : List β :=
  mapWithIndexFrom f 0 l

/-- The interaction record as consumed by `src/src/App.tsx`: `sources` is
the ordered list of source-id strings carried on the record. -/
structure RecordV1 where
  a : String
  b : String
  sources : List String
deriving Repr, DecidableEq

/-- The `/api/interaction` response as consumed by `src/src/App.tsx`:
`sources` is the backend's detailed citation list (`?? []` collapses an
absent field to the empty list). -/
structure ResponseV1 where
  interaction : Option RecordV1
  sources : List Source
deriving Repr, DecidableEq

/-- `resolveSources` from `src/src/App.tsx` lines 25-40: prefer the
response's non-empty detailed list; otherwise wrap each record source id as
`{ id, title: "Source <index+1>" }`. -/
def resolveSourcesV1 (response : Option ResponseV1) : List Source :=
  match response with
  | none => []
  | some r =>
    let detailedSources := r.sources
    if detailedSources.length > 0 then detailedSources
    else
      let interactionSources := (r.interaction.map RecordV1.sources).getD []
      mapWithIndex
        (fun index sourceId =>
          { id := some sourceId, title := some ("Source " ++ toString (index + 1)) })
        interactionSources

/-- The interaction record as consumed by `src/App.tsx`: the record itself
carries `Source` objects. -/
structure RecordV2 where
  a : String
  b : String
  sources : List Source
deriving Repr, DecidableEq

/-- `resolveSources` from `src/App.tsx` lines 37-40: the record's `sources`
array, unchanged (`Array.isArray` holds for every embedded list). -/
def resolveSourcesV2 (interaction : Option RecordV2) : List Source :=
  match interaction with
  | none => []
  | some i => i.sources

/-! ## `topInteractions` (src/src/App.tsx lines 463-480)

The dataset-overview panel sorts the interaction list with a comparator and
keeps the first four rows.  `Array.prototype.sort` is stable (ES2019) and
its comparator here is a total preorder, so the stable insertion sort below
is an exact model. -/

structure InteractionWithRisk where
  id : String
  a : String
  b : String
  severity : String
  evidence : String
  risk_score : Option ℚ
deriving Repr, DecidableEq

/-- `severityRanking[severity] ?? 0` for the lowercased severity. -/
def severityRanking (s : String) : ℚ :=
  if s = "severe" then 3
  else if s = "moderate" then 2
  else if s = "mild" then 1
  else 0

/-- The comparator of `topInteractions`: severity-rank difference first,
risk-score difference on a severity tie. -/
def cmpTop (x y : InteractionWithRisk) : ℚ :=
  let severityDelta :=
    severityRanking (jsLower y.severity) - severityRanking (jsLower x.severity)
  if severityDelta ≠ 0 then severityDelta
  else (y.risk_score.getD 0) - (x.risk_score.getD 0)

/-- `x` sorts no later than `y` under the comparator. -/
def topLe (x y : InteractionWithRisk) : Bool :=
  decide (cmpTop x y ≤ 0)

/-- Stable insertion of `x` into a sorted list: `x` goes before the first
element it does not strictly follow. -/
def insertLe (le : α → α → Bool) (x : α) : List α → List α
  | [] => [x]
  | y :: ys => if le x y then x :: y :: ys else y :: insertLe le x ys

/-- Stable sort by `le`; models ES2019 `Array.prototype.sort`, which is
stable and, for a total-preorder comparator, has a unique result. -/
def sortLe (le : α → α → Bool) : List α → List α
  | [] => []
  | x :: xs => insertLe le x (sortLe le xs)

/-- `topInteractions` from `src/src/App.tsx` lines 463-480: sort a copy by
the comparator, keep the first four. -/
def topInteractions (l : List InteractionWithRisk) : List InteractionWithRisk :=
  (sortLe topLe l).take 4

/-! ## `normaliseSynonyms` (src/src/App.tsx lines 115-169)

A synonym candidate field is absent, an array of strings, or a single
delimited string.  `addValue` trims, deduplicates case-insensitively via the
`seen` set, and appends first occurrences in order. -/

/-- A duck-typed synonym candidate field. -/
inductive SynCandidate where
  | absent : SynCandidate
  | arr (entries : List String) : SynCandidate
  | str (value : String) : SynCandidate
deriving Repr, DecidableEq

/-- The state of `normaliseSynonyms`: the `seen` set of lowercased keys and
the accumulated synonym list. -/
structure SynState where
  seen : List String
  synonyms : List String
deriving Repr, DecidableEq

/-- `addValue` from `src/src/App.tsx` lines 119-133. -/
def addValue (st : SynState) (value : String) : SynState :=
  let trimmed := jsTrim value
  if trimmed = "" then st
  else
    let key := jsLower trimmed
    if key ∈ st.seen then st
    else { seen := key :: st.seen, synonyms := st.synonyms ++ [trimmed] }

/-- The separator class of `candidate.split(/[,;|\/]+/)`. -/
def isSynSep (c : Char) : Bool :=
  c = ',' || c = ';' || c = '|' || c = '/'

/-- The values `parseCandidate` feeds to `addValue`, in order
(`src/src/App.tsx` lines 135-158): array entries as-is; a string's trimmed
non-empty segments, or the string itself when no segment survives. -/
def candidateValues : SynCandidate → List String
  | SynCandidate.absent => []
  | SynCandidate.arr entries => entries
  | SynCandidate.str value =>
    let parts := ((jsSplit isSynSep value).map jsTrim).filter (· ≠ "")
    if parts = [] then [value] else parts

/-- `parseCandidate` folded over the state. -/
def parseCandidate (st : SynState) (c : SynCandidate) : SynState :=
  (candidateValues c).foldl addValue st

/-- The six duck-typed fields `normaliseSynonyms` inspects, in order. -/
structure CompoundSyn where
  synonyms : SynCandidate
  synonym : SynCandidate
  synonyms_string : SynCandidate
  synonym_list : SynCandidate
  alternate_names : SynCandidate
  also_known_as : SynCandidate
deriving Repr, DecidableEq

/-- The full candidate stream of a compound, in the order the code visits
its fields. -/
def compoundCandidateStream (c : CompoundSyn) : List String :=
  List.flatten (List.map candidateValues
    [c.synonyms, c.synonym, c.synonyms_string, c.synonym_list,
      c.alternate_names, c.also_known_as])

/-- `normaliseSynonyms` from `src/src/App.tsx` lines 115-169. -/
def normaliseSynonyms (c : CompoundSyn) : List String :=
  (List.foldl parseCandidate { seen := [], synonyms := [] }
    [c.synonyms, c.synonym, c.synonyms_string, c.synonym_list,
      c.alternate_names, c.also_known_as]).synonyms

/-! ## Risk scoring engine

Modelled from the spec: the engine itself (`compute_risk` in
`api/risk_api.py`) is not under `src/`; only its documentation
(`src/docs/IMPLEMENTATION_ROADMAP.md`), its REST callers and the design
specification describe it.  The definitions below follow the
specification's §4.3 algorithm step by step. -/

namespace Engine

/-- Modelled from the spec: ordinal severity levels of an interaction. -/
inductive Severity where
  | None : Severity
  | Mild : Severity
  | Moderate : Severity
  | Severe : Severity
deriving Repr, DecidableEq

/-- Modelled from the spec: ordinal evidence grades, `A` strongest. -/
inductive Evidence where
  | A : Evidence
  | B : Evidence
  | C : Evidence
  | D : Evidence
deriving Repr, DecidableEq

/-- Modelled from the spec: an interaction record together with the
compound-level risk tiers (folded to "either compound is marked High") that
the contextual adjustments consult. -/
structure InteractionRecord where
  a : String
  b : String
  severity : Severity
  evidence : Evidence
  mechanism : List String
  sources : List String
  pregnancyHigh : Bool := false
  renalHigh : Bool := false
  hepaticHigh : Bool := false

/-- Modelled from the spec: the declarative rule set — base scores,
evidence weights, additive mechanism deltas, the ascending threshold table,
the contextual weight multipliers, the dose-factor cap (default 2.0) and
the dose sensitivity exponent. -/
structure RiskRuleSet where
  severityBase : Severity → ℚ
  evidenceWeight : Evidence → ℚ
  mechanismDelta : List (String × ℚ)
  thresholds : List (ℚ × String)
  wPregnancy : ℚ := 3/2
  wRenal : ℚ := 13/10
  wHepatic : ℚ := 13/10
  wQt : ℚ := 7/5
  doseCap : ℚ := 2
  doseExponent : ℕ := 1

/-- Modelled from the spec: per-request user context — condition flags, the
user's dose and the compound's recommended dose when known. -/
structure UserContext where
  pregnant : Bool := false
  renalImpairment : Bool := false
  hepaticImpairment : Bool := false
  longQt : Bool := false
  userDose : Option ℚ := none
  recommendedDose : Option ℚ := none

/-- Modelled from the spec: the scoring output value object. -/
structure ScoringResult where
  score : ℚ
  category : String
  factors : List (String × ℚ)
  sources : List String

/-- Step 3: sum the deltas of the mechanism tags known to the rule set;
unknown tags contribute zero. -/
def mechanismAdjust (rules : RiskRuleSet) (tags : List String) : ℚ :=
  tags.foldl (fun acc tag => acc + ((rules.mechanismDelta.lookup tag).getD 0)) 0

/-- Steps 1-3: severity base, multiplicative evidence adjustment, additive
mechanism deltas, with the always-applied contributions recorded. -/
def mechanismStage (i : InteractionRecord) (rules : RiskRuleSet) :
    ℚ × List (String × ℚ) :=
  let base := rules.severityBase i.severity
  let weight := rules.evidenceWeight i.evidence
  (base * weight + mechanismAdjust rules i.mechanism,
    [("severity_base", base), ("evidence_weight", weight)])

/-- One multiplicative contextual adjustment: applied and recorded exactly
when its trigger holds. -/
def applyFlag (name : String) (triggered : Bool) (w : ℚ)
    (acc : ℚ × List (String × ℚ)) : ℚ × List (String × ℚ) :=
  if triggered then (acc.1 * w, acc.2 ++ [(name, w)]) else acc

/-- Step 4 without the dose step: the four condition-flag multipliers. -/
def flagsStage (i : InteractionRecord) (rules : RiskRuleSet) (c : UserContext)
    (acc : ℚ × List (String × ℚ)) : ℚ × List (String × ℚ) :=
  applyFlag "qt_risk" (c.longQt && i.mechanism.contains "QT_prolongation") rules.wQt
    (applyFlag "hepatic_flag" (c.hepaticImpairment && i.hepaticHigh) rules.wHepatic
      (applyFlag "renal_flag" (c.renalImpairment && i.renalHigh) rules.wRenal
        (applyFlag "pregnancy_flag" (c.pregnant && i.pregnancyHigh) rules.wPregnancy acc)))

/-- The running score and factors just before the dose step. -/
def preDose (i : InteractionRecord) (rules : RiskRuleSet) (c : UserContext) :
    ℚ × List (String × ℚ) :=
  flagsStage i rules c (mechanismStage i rules)

/-- `doseFactor = min(userDose / recommendedDose, capConstant)`
(specification §4.3 step 4 and `src/docs/IMPLEMENTATION_ROADMAP.md` §2.2). -/
def doseFactor (userDose recommendedDose cap : ℚ) : ℚ :=
  min (userDose / recommendedDose) cap

/-- The dose step: a missing or zero recommended dose skips the adjustment
(no division is attempted) and records the skip; otherwise, when the user
dose is known, the capped factor is raised to the sensitivity exponent,
multiplied in, and recorded. -/
def applyDose (rules : RiskRuleSet) (c : UserContext)
    (acc : ℚ × List (String × ℚ)) : ℚ × List (String × ℚ) :=
  match c.recommendedDose with
  | none => (acc.1, acc.2 ++ [("dose_skipped", 1)])
  | some r =>
    if r = 0 then (acc.1, acc.2 ++ [("dose_skipped", 1)])
    else
      match c.userDose with
      | none => acc
      | some u =>
        let f := doseFactor u r rules.doseCap
        (acc.1 * f ^ rules.doseExponent, acc.2 ++ [("dose_factor", f)])

/-- Steps 1-4: the unclamped score and the factors that fired; contextual
adjustments run only when a context is provided. -/
def scorePipeline (i : InteractionRecord) (rules : RiskRuleSet)
    (ctx : Option UserContext) : ℚ × List (String × ℚ) :=
  match ctx with
  | none => mechanismStage i rules
  | some c => applyDose rules c (preDose i rules c)

/-- Step 6: the label of the last ascending threshold the score meets, or
the lowest category when the score is below every threshold. -/
def categoryFor (rules : RiskRuleSet) (s : ℚ) : String :=
  match (rules.thresholds.filter (fun t => t.1 ≤ s)).getLast? with
  | some t => t.2
  | none => ((rules.thresholds.head?).map Prod.snd).getD "Unknown"

/-- Modelled from the spec: `score(interaction, rules, context?)` — the
full §4.3 pipeline with the step-5 clamp to a non-negative floor and the
source citations carried through unchanged. -/
def score (i : InteractionRecord) (rules : RiskRuleSet)
    (ctx : Option UserContext) : ScoringResult :=
  let p := scorePipeline i rules ctx
  let finalScore := max p.1 0
  { score := finalScore
    category := categoryFor rules finalScore
    factors := p.2
    sources := i.sources }

end Engine

end Supptracker

/-! ## Sample inputs used by witnesses -/

namespace Supptracker

/-- A concrete interaction record for witness instantiations. -/
def sampleEngineRecord : Engine.InteractionRecord :=
  { a := "creatine", b := "caffeine", severity := Engine.Severity.Moderate,
    evidence := Engine.Evidence.B, mechanism := [], sources := ["src_1"] }

/-- The specification §8 example rule set. -/
def sampleRules : Engine.RiskRuleSet :=
  { severityBase := fun s =>
      match s with
      | Engine.Severity.None => 0
      | Engine.Severity.Mild => 1
      | Engine.Severity.Moderate => 3
      | Engine.Severity.Severe => 7
    evidenceWeight := fun e =>
      match e with
      | Engine.Evidence.A => 13/10
      | Engine.Evidence.B => 1
      | Engine.Evidence.C => 4/5
      | Engine.Evidence.D => 3/5
    mechanismDelta := []
    thresholds := [(0, "Safe"), (2, "Caution"), (5, "Avoid")] }

/-- A context whose user dose is twice the recommended dose. -/
def sampleDoseCtx : Engine.UserContext :=
  { userDose := some 1000, recommendedDose := some 500 }

/-- A context with a known user dose but no recommended dose. -/
def sampleSkipCtx : Engine.UserContext :=
  { userDose := some 1000 }

end Supptracker

open Supptracker

/-- C1: for every interaction record, rule set and optional user context,
the risk score returned by the scoring engine is non-negative — the final
clamp to a non-negative floor makes 0 the least possible result. -/
theorem C1_score_nonneg (i : Engine.InteractionRecord)
    (rules : Engine.RiskRuleSet) (ctx : Option Engine.UserContext) :
    0 ≤ (Engine.score i rules ctx).score := by
  simp only [Engine.score]
  exact le_max_right _ _

/-- C2: whenever the user dose and a non-zero recommended dose are both
known, the engine applies and records the dose factor
`min(userDose / recommendedDose, cap)`; with the default cap 2, a
recommended dose of 500 gives exactly 2 for user dose 1000 and still 2 (not
4) for user dose 2000. -/
theorem C2_dose_factor_capped (i : Engine.InteractionRecord)
    (rules : Engine.RiskRuleSet) (c : Engine.UserContext) (u r : ℚ)
    (hu : c.userDose = some u) (hr : c.recommendedDose = some r)
    (hr0 : r ≠ 0) :
    ("dose_factor", min (u / r) rules.doseCap)
        ∈ (Engine.score i rules (some c)).factors
      ∧ Engine.doseFactor 1000 500 2 = 2
      ∧ Engine.doseFactor 2000 500 2 = 2 := by
  refine ⟨?_, ?_, ?_⟩
  · simp [Engine.score, Engine.scorePipeline, Engine.applyDose, hu, hr, hr0,
      Engine.doseFactor]
  · rw [Engine.doseFactor]
    norm_num
  · rw [Engine.doseFactor]
    norm_num

/-- Witness for C2 at user dose 1000, recommended dose 500. -/
theorem C2_dose_factor_capped_witness :
    ("dose_factor", min ((1000 : ℚ) / 500) sampleRules.doseCap)
        ∈ (Engine.score sampleEngineRecord sampleRules (some sampleDoseCtx)).factors
      ∧ Engine.doseFactor 1000 500 2 = 2
      ∧ Engine.doseFactor 2000 500 2 = 2 :=
  C2_dose_factor_capped sampleEngineRecord sampleRules sampleDoseCtx 1000 500
    rfl rfl (by norm_num)

/-- C3: when the recommended dose is missing or zero, the dose-adjustment
step is skipped entirely — the final score is the clamp of the pre-dose
running score, so no division is performed — and the skip is recorded in
the factors mapping. -/
theorem C3_dose_skip_recorded (i : Engine.InteractionRecord)
    (rules : Engine.RiskRuleSet) (c : Engine.UserContext)
    (h : c.recommendedDose = none ∨ c.recommendedDose = some 0) :
    ("dose_skipped", 1) ∈ (Engine.score i rules (some c)).factors
      ∧ (Engine.score i rules (some c)).score
          = max (Engine.preDose i rules c).1 0 := by
  rcases h with h | h <;>
    simp [Engine.score, Engine.scorePipeline, Engine.applyDose, h]

/-- Witness for C3 with a missing recommended dose. -/
theorem C3_dose_skip_recorded_witness :
    ("dose_skipped", 1)
        ∈ (Engine.score sampleEngineRecord sampleRules (some sampleSkipCtx)).factors
      ∧ (Engine.score sampleEngineRecord sampleRules (some sampleSkipCtx)).score
          = max (Engine.preDose sampleEngineRecord sampleRules sampleSkipCtx).1 0 :=
  C3_dose_skip_recorded sampleEngineRecord sampleRules sampleSkipCtx (Or.inl rfl)

/-- C9: a query that is empty or all whitespace makes `searchCompounds`
return the empty list without issuing a backend request. -/
theorem C9_search_blank_query (query : String) (payload : SearchPayload)
    (h : jsTrim query = "") :
    searchCompounds query payload = ([], false) := by
  simp [searchCompounds, h]

/-- Witness for C9 at the whitespace query `"   "`. -/
theorem C9_search_blank_query_witness :
    jsTrim "   " = "" ∧ searchCompounds "   " {} = ([], false) :=
  ⟨by decide, C9_search_blank_query "   " {} (by decide)⟩

/-! ## Helper lemmas for the `sourceLabel` cascade -/

/-- The first kept value of an optional-string cascade, following the
claim's reading order. -/
def firstTruthy (l : List (Option String)) (fallback : String) : String :=
  match (l.filterMap id).filter (· ≠ "") with
  | [] => fallback
  | v :: _ => v

theorem jsOrString_eq_firstTruthy (x : Option String)
    (rest : List (Option String)) (fallback : String) :
    jsOrString x (firstTruthy rest fallback)
      = firstTruthy (x :: rest) fallback := by
  cases x with
  | none => simp [jsOrString, firstTruthy]
  | some s =>
    by_cases hs : s = "" <;>
      simp [jsOrString, firstTruthy, hs]

theorem sourcePrefix_ne_empty (t : String) : "Source " ++ t ≠ "" := by
  intro h
  have h2 : ("Source " ++ t).data = ("" : String).data := congrArg String.data h
  simp [String.data, String.append] at h2

theorem jsOrString_ne_empty (x : Option String) (y : String) (hy : y ≠ "") :
    jsOrString x y ≠ "" := by
  cases x with
  | none => simpa [jsOrString] using hy
  | some s =>
    by_cases hs : s = "" <;> simp [jsOrString, hs, hy]

/-- C10: `sourceLabel` returns the first non-empty value among citation,
title, reference, url and id, in that order, falling back to
`"Source <index+1>"`, and its result is never the empty string. -/
theorem C10_sourceLabel_fallback (s : Source) (index : Nat) :
    sourceLabel s index
        = firstTruthy [s.citation, s.title, s.reference, s.url, s.id]
            ("Source " ++ toString (index + 1))
      ∧ sourceLabel s index ≠ "" := by
  constructor
  · show jsOrString s.citation _ = _
    rw [show jsOrString s.id ("Source " ++ toString (index + 1))
          = firstTruthy [s.id] ("Source " ++ toString (index + 1)) from
        jsOrString_eq_firstTruthy s.id [] _,
      jsOrString_eq_firstTruthy s.url, jsOrString_eq_firstTruthy s.reference,
      jsOrString_eq_firstTruthy s.title, jsOrString_eq_firstTruthy s.citation]
  · exact jsOrString_ne_empty _ _ (jsOrString_ne_empty _ _
      (jsOrString_ne_empty _ _ (jsOrString_ne_empty _ _
        (jsOrString_ne_empty _ _ (sourcePrefix_ne_empty _)))))

/-! ## C4: frontend handling of empty and single-element stacks -/

/-- C4 (counterexample): a single-element stack is rejected by
`StackChecker`'s `handleSubmit` with a validation error — it is not
evaluated to zero pairs and an empty result list. -/
theorem C4_counterexample_single_element_rejected :
    stackCheckerSubmit "creatine"
      = Except.error "Enter at least two compounds separated by commas." := by
  rfl

/-- C4 (amended): the frontend rejects rather than evaluates: `handleSubmit`
(`StackChecker.tsx`) rejects any input parsing to fewer than two compounds
with a validation message, and `handleStackSubmit` (`src/src/App.tsx`,
`src/App.tsx`) rejects an empty parsed list with a validation message while
submitting any non-empty list — including single-element lists — to the
backend. -/
theorem C4_frontend_stack_validation (input : String) :
    ((parseStackCheckerInput input).length < 2 →
        stackCheckerSubmit input
          = Except.error "Enter at least two compounds separated by commas.")
      ∧ ((parseStackInput input).length = 0 →
        handleStackSubmit input
          = Except.error "List at least one compound to evaluate the stack.")
      ∧ (0 < (parseStackInput input).length →
        handleStackSubmit input = Except.ok (parseStackInput input)) := by
  refine ⟨fun h => ?_, fun h => ?_, fun h => ?_⟩
  · simp [stackCheckerSubmit, h]
  · simp [handleStackSubmit, h]
  · simp [handleStackSubmit, h.ne']

/-- Witness for C4 (amended) on the inputs `"creatine"` and `""`. -/
theorem C4_frontend_stack_validation_witness :
    (parseStackCheckerInput "creatine").length < 2
      ∧ stackCheckerSubmit "creatine"
          = Except.error "Enter at least two compounds separated by commas."
      ∧ (parseStackInput "").length = 0
      ∧ handleStackSubmit ""
          = Except.error "List at least one compound to evaluate the stack."
      ∧ handleStackSubmit "creatine" = Except.ok (parseStackInput "creatine") :=
  ⟨by decide,
    (C4_frontend_stack_validation "creatine").1 (by decide),
    by decide,
    (C4_frontend_stack_validation "").2.1 (by decide),
    (C4_frontend_stack_validation "creatine").2.2 (by decide)⟩

/-! ## C5: error propagation of the API helpers -/

/-- A backend 404 response for an unknown pair. -/
def notFoundResponse : ResponseModel :=
  { ok := false, text := "Not Found", json := JsonBody.other }

/-- C5 (counterexample): on a non-OK response for an unknown pair,
`getInteraction` throws `Error('pair not found')` (`Except.error` models the
thrown exception) instead of returning a `NotFound` result value. -/
theorem C5_counterexample_lookup_throws :
    getInteraction notFoundResponse = Except.error "pair not found" := by
  rfl

/-- C5 (amended): per-request failures cross the frontend API boundary as
thrown `Error`s, not result values — `getInteraction` throws
`'pair not found'` and `request` throws the parsed backend message on every
non-OK response — and the UI pair handler catches the exception and turns
it into error state rather than crashing. -/
theorem C5_api_helpers_throw (res : ResponseModel) (h : res.ok = false) :
    getInteraction res = Except.error "pair not found"
      ∧ request res = Except.error (parseError res "Request failed")
      ∧ handlePairOutcome (getInteraction res)
          = { status := "error", errorMessage := some "pair not found",
              payload := none } := by
  simp [getInteraction, request, handlePairOutcome, h]

/-- Witness for C5 (amended) at a concrete 404 response. -/
theorem C5_api_helpers_throw_witness :
    getInteraction notFoundResponse = Except.error "pair not found"
      ∧ request notFoundResponse
          = Except.error (parseError notFoundResponse "Request failed")
      ∧ handlePairOutcome (getInteraction notFoundResponse)
          = { status := "error", errorMessage := some "pair not found",
              payload := none } :=
  C5_api_helpers_throw notFoundResponse rfl

/-! ## C7: source citations in the presented result -/

theorem mapWithIndexFrom_wrap_id (ids : List String) (i : Nat) :
    (mapWithIndexFrom
      (fun index sourceId =>
        ({ id := some sourceId,
           title := some ("Source " ++ toString (index + 1)) } : Source))
      i ids).map Source.id = ids.map some := by
  induction ids generalizing i with
  | nil => rfl
  | cons x xs ih => simp [mapWithIndexFrom, ih]

/-- A detailed backend citation whose id differs from the record's id. -/
def sampleDetailedSource : Source :=
  { id := some "backend_source", citation := some "Detailed citation" }

/-- A pair response whose record carries source id `"s1"` while the backend
attaches a different detailed source list. -/
def responseMismatch : ResponseV1 :=
  { interaction := some { a := "creatine", b := "caffeine", sources := ["s1"] },
    sources := [sampleDetailedSource] }

/-- C7 (counterexample): the presented source list of `src/src/App.tsx` is
not the list carried on the `InteractionRecord` — here the record carries
id `"s1"` but the rendered list is the response's detailed source with id
`"backend_source"`. -/
theorem C7_counterexample_sources_replaced :
    (resolveSourcesV1 (some responseMismatch)).map Source.id
      ≠ ((responseMismatch.interaction.map RecordV1.sources).getD []).map some := by
  decide

/-- C7 (amended): the simple variant (`src/App.tsx`) presents the record's
source list unchanged; the richer variant (`src/src/App.tsx`) presents the
response's detailed sources when that list is non-empty and otherwise wraps
the record's source ids, preserving their content and order, as
`{ id, title: "Source <index+1>" }` objects. -/
theorem C7_sources_resolution (rec : RecordV2) (resp : ResponseV1) :
    resolveSourcesV2 (some rec) = rec.sources
      ∧ (resp.sources ≠ [] → resolveSourcesV1 (some resp) = resp.sources)
      ∧ (resp.sources = [] →
        (resolveSourcesV1 (some resp)).map Source.id
          = ((resp.interaction.map RecordV1.sources).getD []).map some) := by
  refine ⟨rfl, fun h => ?_, fun h => ?_⟩
  · simp [resolveSourcesV1, List.length_pos.mpr h]
  · simp [resolveSourcesV1, h, mapWithIndex, mapWithIndexFrom_wrap_id]

/-- Witness for C7 (amended) at concrete records. -/
theorem C7_sources_resolution_witness :
    resolveSourcesV2 (some { a := "a", b := "b", sources := [sampleDetailedSource] })
        = [sampleDetailedSource]
      ∧ ([sampleDetailedSource] : List Source) ≠ []
      ∧ resolveSourcesV1 (some responseMismatch) = responseMismatch.sources
      ∧ (resolveSourcesV1
            (some { interaction := some { a := "a", b := "b", sources := ["s1"] },
                    sources := [] })).map Source.id = [some "s1"] :=
  ⟨(C7_sources_resolution { a := "a", b := "b", sources := [sampleDetailedSource] }
        responseMismatch).1,
    by decide,
    (C7_sources_resolution { a := "a", b := "b", sources := [sampleDetailedSource] }
        responseMismatch).2.1 (by decide),
    (C7_sources_resolution { a := "a", b := "b", sources := [sampleDetailedSource] }
        { interaction := some { a := "a", b := "b", sources := ["s1"] },
          sources := [] }).2.2 rfl⟩

/-! ## C8: case-insensitive synonym deduplication -/

/-- The invariant of the `normaliseSynonyms` fold: the accumulated
synonyms are pairwise distinct after lowercasing, and each one's key is in
the `seen` set. -/
def SynInv (st : SynState) : Prop :=
  st.synonyms.Pairwise (fun x y => jsLower x ≠ jsLower y)
    ∧ ∀ x ∈ st.synonyms, jsLower x ∈ st.seen

theorem addValue_inv {st : SynState} (h : SynInv st) (v : String) :
    SynInv (addValue st v) := by
  obtain ⟨hpair, hseen⟩ := h
  unfold addValue
  by_cases h1 : jsTrim v = ""
  · simpa [h1] using ⟨hpair, hseen⟩
  · by_cases h2 : jsLower (jsTrim v) ∈ st.seen
    · simpa [h1, h2] using ⟨hpair, hseen⟩
    · simp only [h1, h2, if_neg, if_false]
      constructor
      · rw [List.pairwise_append]
        refine ⟨hpair, List.pairwise_singleton _ _, ?_⟩
        intro x hx y hy
        rw [List.mem_singleton] at hy
        subst hy
        exact fun hEq => h2 (hEq ▸ hseen x hx)
      · intro x hx
        rcases List.mem_append.mp hx with hx | hx
        · exact List.mem_cons_of_mem _ (hseen x hx)
        · rw [List.mem_singleton] at hx
          subst hx
          exact List.mem_cons_self _ _

theorem foldl_addValue_inv {st : SynState} (h : SynInv st) (l : List String) :
    SynInv (l.foldl addValue st) := by
  induction l generalizing st with
  | nil => exact h
  | cons v vs ih => exact ih (addValue_inv h v)

/-- Stated from the claim's words: keep a value exactly when its lowercased
form has not been kept before (the accumulated keys start at `seenKeys`),
preserving the order of first occurrences. -/
def keepFirstByKey : List String → List String → List String
  | _, [] => []
  | seenKeys, v :: vs =>
    if jsLower v ∈ seenKeys then keepFirstByKey seenKeys vs
    else v :: keepFirstByKey (jsLower v :: seenKeys) vs

/-- Stated from the claim's words: case-insensitive deduplication of a list
that keeps the first occurrence of each entry in its original order. -/
def dedupFirstCaseInsensitive (l : List String) : List String :=
  keepFirstByKey [] l

theorem foldl_addValue_keepFirst (l : List String) :
    ∀ st : SynState,
      (l.foldl addValue st).synonyms
        = st.synonyms
            ++ keepFirstByKey st.seen ((l.map jsTrim).filter (· ≠ "")) := by
  induction l with
  | nil =>
    intro st
    simp [keepFirstByKey]
  | cons v vs ih =>
    intro st
    rw [List.foldl_cons]
    by_cases h1 : jsTrim v = ""
    · have ha : addValue st v = st := by
        simp [addValue, h1]
      rw [ha, ih st]
      simp [h1]
    · by_cases h2 : jsLower (jsTrim v) ∈ st.seen
      · have ha : addValue st v = st := by
          simp [addValue, h1, h2]
        rw [ha, ih st]
        simp [h1, keepFirstByKey, h2]
      · have ha : addValue st v
            = { seen := jsLower (jsTrim v) :: st.seen,
                synonyms := st.synonyms ++ [jsTrim v] } := by
          simp [addValue, h1, h2]
        rw [ha, ih]
        simp [h1, keepFirstByKey, h2]

theorem foldl_parseCandidate_flatten (cs : List SynCandidate) (st : SynState) :
    cs.foldl parseCandidate st
      = ((cs.map candidateValues).flatten).foldl addValue st := by
  induction cs generalizing st with
  | nil => rfl
  | cons c cs ih =>
    rw [List.foldl_cons, ih, List.map_cons, List.flatten_cons, List.foldl_append]
    rfl

/-- C8: the normalised synonym list is exactly the case-insensitive
first-occurrence deduplication of the compound's trimmed non-empty
candidate stream — each synonym's first occurrence is kept, in its original
order, and every later case-insensitive duplicate is dropped — so in
particular no two entries agree after lowercasing. -/
theorem C8_synonyms_first_occurrence (c : CompoundSyn) :
    normaliseSynonyms c
        = dedupFirstCaseInsensitive
            (((compoundCandidateStream c).map jsTrim).filter (· ≠ ""))
      ∧ (normaliseSynonyms c).Pairwise (fun x y => jsLower x ≠ jsLower y) := by
  have heq : normaliseSynonyms c
      = ((compoundCandidateStream c).foldl addValue
          { seen := [], synonyms := [] }).synonyms := by
    rw [normaliseSynonyms, foldl_parseCandidate_flatten]
    rfl
  constructor
  · rw [heq, foldl_addValue_keepFirst]
    simp [dedupFirstCaseInsensitive]
  · have hstart : SynInv { seen := [], synonyms := [] } := by
      constructor <;> simp [SynInv]
    have h := foldl_addValue_inv hstart (compoundCandidateStream c)
    rw [heq]
    exact h.1

/-! ## C6: ordering of the presented interaction list -/

theorem cmpTop_le_iff (x y : InteractionWithRisk) :
    cmpTop x y ≤ 0 ↔
      (severityRanking (jsLower y.severity) < severityRanking (jsLower x.severity)
        ∨ (severityRanking (jsLower x.severity) = severityRanking (jsLower y.severity)
            ∧ y.risk_score.getD 0 ≤ x.risk_score.getD 0)) := by
  unfold cmpTop
  by_cases h : severityRanking (jsLower y.severity)
      - severityRanking (jsLower x.severity) = 0
  · have hra : severityRanking (jsLower x.severity)
        = severityRanking (jsLower y.severity) := by linarith
    simp [h, hra, sub_nonpos]
  · simp only [ne_eq, h, not_false_eq_true, if_true, sub_nonpos]
    constructor
    · intro hle
      left
      exact lt_of_le_of_ne hle (fun e => h (by rw [e]; ring))
    · rintro (hlt | ⟨heq, _⟩)
      · exact le_of_lt hlt
      · exact absurd (by rw [heq]; ring) h

theorem cmpTop_neg (x y : InteractionWithRisk) : cmpTop y x = -cmpTop x y := by
  unfold cmpTop
  by_cases h : severityRanking (jsLower y.severity)
      - severityRanking (jsLower x.severity) = 0
  · have h' : severityRanking (jsLower x.severity)
        - severityRanking (jsLower y.severity) = 0 := by linarith
    simp only [ne_eq, h, h', not_true_eq_false, if_false]
    ring
  · have h' : ¬ severityRanking (jsLower x.severity)
        - severityRanking (jsLower y.severity) = 0 := fun e => h (by linarith)
    simp only [ne_eq, h, h', not_false_eq_true, if_true]
    ring

theorem topLe_total (x y : InteractionWithRisk) :
    topLe x y = true ∨ topLe y x = true := by
  simp only [topLe, decide_eq_true_eq]
  rcases le_total (cmpTop x y) 0 with h | h
  · exact Or.inl h
  · right
    rw [cmpTop_neg]
    linarith

theorem topLe_trans (x y z : InteractionWithRisk)
    (h1 : topLe x y = true) (h2 : topLe y z = true) : topLe x z = true := by
  simp only [topLe, decide_eq_true_eq, cmpTop_le_iff] at h1 h2 ⊢
  rcases h1 with h1 | ⟨e1, s1⟩ <;> rcases h2 with h2 | ⟨e2, s2⟩
  · exact Or.inl (lt_trans h2 h1)
  · exact Or.inl (e2 ▸ h1)
  · exact Or.inl (e1 ▸ h2)
  · exact Or.inr ⟨e1.trans e2, le_trans s2 s1⟩

theorem mem_insertLe {α : Type} {le : α → α → Bool} (x y : α) (l : List α) :
    y ∈ insertLe le x l ↔ y = x ∨ y ∈ l := by
  induction l with
  | nil => simp [insertLe]
  | cons z zs ih =>
    simp only [insertLe]
    split
    · simp [List.mem_cons]
    · simp only [List.mem_cons, ih]
      tauto

theorem sorted_insertLe {α : Type} {le : α → α → Bool}
    (htot : ∀ a b, le a b = true ∨ le b a = true)
    (htrans : ∀ a b c, le a b = true → le b c = true → le a c = true)
    (x : α) {l : List α} (h : l.Sorted (fun a b => le a b = true)) :
    (insertLe le x l).Sorted (fun a b => le a b = true) := by
  induction l with
  | nil => simp [insertLe]
  | cons y ys ih =>
    rw [List.sorted_cons] at h
    obtain ⟨hy, hys⟩ := h
    simp only [insertLe]
    split
    · rename_i hxy
      rw [List.sorted_cons]
      refine ⟨fun z hz => ?_, List.sorted_cons.mpr ⟨hy, hys⟩⟩
      rcases List.mem_cons.mp hz with rfl | hz
      · exact hxy
      · exact htrans x y z hxy (hy z hz)
    · rename_i hxy
      rw [List.sorted_cons]
      refine ⟨fun z hz => ?_, ih hys⟩
      rcases (mem_insertLe x z ys).mp hz with h' | hz
      · rw [h']
        rcases htot x y with h'' | h''
        · exact absurd h'' (by simpa using hxy)
        · exact h''
      · exact hy z hz

theorem sorted_sortLe {α : Type} {le : α → α → Bool}
    (htot : ∀ a b, le a b = true ∨ le b a = true)
    (htrans : ∀ a b c, le a b = true → le b c = true → le a c = true)
    (l : List α) : (sortLe le l).Sorted (fun a b => le a b = true) := by
  induction l with
  | nil => simp [sortLe]
  | cons x xs ih => exact sorted_insertLe htot htrans x ih

/-- The ordering claimed in the spec for the presented list: descending
severity rank, then descending risk score, with remaining ties broken by
lexicographic ordering of the compound pair (stated from the claim's words,
to be compared against the code's comparator). -/
def claimTopLe (x y : InteractionWithRisk) : Bool :=
  decide (severityRanking (jsLower y.severity) < severityRanking (jsLower x.severity))
    || (decide (severityRanking (jsLower x.severity)
          = severityRanking (jsLower y.severity))
        && (decide (y.risk_score.getD 0 < x.risk_score.getD 0)
            || (decide (x.risk_score.getD 0 = y.risk_score.getD 0)
                && (decide (x.a < y.a) || (decide (x.a = y.a) && decide (x.b ≤ y.b))))))

/-- An interaction whose pair sorts lexicographically after
`tieEarlier`'s, listed first. -/
def tieLater : InteractionWithRisk :=
  { id := "i1", a := "zinc", b := "zinc", severity := "Mild", evidence := "B",
    risk_score := some 1 }

/-- An interaction tied with `tieLater` on severity and score, listed
second. -/
def tieEarlier : InteractionWithRisk :=
  { id := "i2", a := "aloe", b := "basil", severity := "Mild", evidence := "B",
    risk_score := some 1 }

/-- C6 (counterexample): two interactions tied on severity and score stay
in input order — the presented list is not sorted by the lexicographic pair
ordering the claim requires on ties. -/
theorem C6_counterexample_no_lex_tiebreak :
    ¬ (topInteractions [tieLater, tieEarlier]).Sorted
        (fun x y => claimTopLe x y = true) := by
  intro h
  have hm : jsLower "Mild" = "mild" := by decide
  have hcmp : cmpTop tieLater tieEarlier = 0 := by
    rw [cmpTop]
    norm_num [tieLater, tieEarlier, hm, severityRanking]
  have hle : topLe tieLater tieEarlier = true := by
    simp [topLe, hcmp]
  have hcomp : topInteractions [tieLater, tieEarlier]
      = [tieLater, tieEarlier] := by
    simp [topInteractions, sortLe, insertLe, hle]
  have hclaim : claimTopLe tieLater tieEarlier = false := by
    rw [claimTopLe]
    norm_num [tieLater, tieEarlier, hm, severityRanking]
    exact ⟨by decide, by decide⟩
  rw [hcomp, List.sorted_cons] at h
  have := h.1 tieEarlier (List.mem_cons_self _ _)
  rw [hclaim] at this
  exact Bool.false_ne_true this

/-- C6 (amended): the presented list is the first four entries of the
interaction list sorted by descending severity rank and then descending
risk score; ties on both retain their input order (the comparator has no
lexicographic tiebreak and `Array.prototype.sort` is stable). -/
theorem C6_topInteractions_sorted (l : List InteractionWithRisk) :
    (topInteractions l).Sorted (fun x y => topLe x y = true)
      ∧ topInteractions l = (sortLe topLe l).take 4 := by
  refine ⟨?_, rfl⟩
  exact List.Pairwise.sublist (List.take_sublist 4 _)
    (sorted_sortLe topLe_total topLe_trans l)

